import Mathlib

/-
Verification of the circuit-breaker service in
scripts/openai_circuit_breaker_mcp.py.

The script is shallowly embedded below.  External effects are made into
explicit parameters:

* the upstream billing endpoint's answer for one date is an
  `UpstreamResponse` (the bytes that `curl` produced, already classified
  by whether `json.loads` succeeds and what shape the value has);
* a per-date fetch as seen by `check_recent_costs` is an
  `Except Unit Int` (the tests monkey-patch `fetch_usage` with functions
  that may raise, so the aggregator's try/except is modelled over a
  possibly-raising fetch);
* a client connection is the list of results of successive `recv`
  calls, each either bytes or a raised socket error, plus a flag saying
  whether `sendall` succeeds;
* Python exceptions are `Except.error ()`: a value `Except.error ()`
  escaping a function means the exception propagates to its caller.

Bytes are `Nat` (each intended below 256), Python `str` is `List Char`,
and JSON numbers are exact rationals, so that the integer coercion
`int(...)` is truncation toward zero on the exact value.
-/

namespace CircuitBreaker

/-- Python whitespace predicate used by `str.strip()` with no argument:
the characters `\t \n \v \f \r`, `\x1c`-`\x1f`, space, `\x85`, `\xa0`,
and the Unicode space separators. -/
def pyIsSpace (c : Char) : Bool :=
  (9 ≤ c.toNat && c.toNat ≤ 13) || (28 ≤ c.toNat && c.toNat ≤ 32) ||
  c.toNat == 0x85 || c.toNat == 0xA0 || c.toNat == 0x1680 ||
  (0x2000 ≤ c.toNat && c.toNat ≤ 0x200A) || c.toNat == 0x2028 ||
  c.toNat == 0x2029 || c.toNat == 0x202F || c.toNat == 0x205F ||
  c.toNat == 0x3000

/-- Removal of leading whitespace, the first half of Python `str.strip()`. -/
def pyStripLeft (cs : List Char) : List Char :=
  cs.dropWhile pyIsSpace

/-- Removal of trailing whitespace, the second half of Python
`str.strip()`; on its own it is Python `str.rstrip()`. -/
def pyStripRight (cs : List Char) : List Char :=
  ((cs.reverse).dropWhile pyIsSpace).reverse

/-- Python `str.strip()` with no argument: whitespace is removed from
both ends of the string (line 59 of the script applies it to the decoded
request line). -/
def pyStrip (cs : List Char) : List Char :=
  pyStripRight (pyStripLeft cs)

/-- Python `str.upper()` as used on the command token (line 59).  The
protocol commands are ASCII, where Python uppercasing is `Char.toUpper`
characterwise. -/
def pyUpper (cs : List Char) : List Char :=
  cs.map Char.toUpper

/-- A JSON value as produced by `json.loads`, as far as
`int(result.get("total_usage", 0))` can observe it.  A number is kept as
an exact rational; array and object payloads are irrelevant because
`int()` raises `TypeError` on both. -/
inductive JsonValue where
  | jnum (q : ℚ)
  | jstr (s : List Char)
  | jbool (b : Bool)
  | jnull
  | jarr
  | jobj

/-- Value of a nonempty ASCII digit string. -/
def digitsVal (cs : List Char) : Nat :=
  cs.foldl (fun acc c => acc * 10 + (c.toNat - 48)) 0

/-- Python `int(s)` on a string: surrounding whitespace is allowed, then
an optional sign and a nonempty run of digits; anything else raises
`ValueError` (`none`).  Underscore separators and non-ASCII digits,
which the script never receives, are not modelled. -/
def pyIntOfString (s : List Char) : Option Int :=
  match pyStrip s with
  | [] => none
  | c :: rest =>
    if c = '-' then
      (if !rest.isEmpty && rest.all Char.isDigit then
        some (-(digitsVal rest : Int)) else none)
    else if c = '+' then
      (if !rest.isEmpty && rest.all Char.isDigit then
        some ((digitsVal rest : Int)) else none)
    else
      (if (c :: rest).all Char.isDigit then
        some ((digitsVal (c :: rest) : Int)) else none)

/-- Truncation toward zero of an exact rational, which is what Python
`int(x)` does to a number `x`. -/
def pyTrunc (q : ℚ) : Int :=
  q.num.tdiv q.den

/-- Python `int(v)` on a JSON value: numbers are truncated toward zero,
numeric strings are parsed, booleans coerce to 0 or 1, and `None`,
arrays and objects raise `TypeError` (`none`). -/
def pyInt : JsonValue → Option Int
  | JsonValue.jnum q => some (pyTrunc q)
  | JsonValue.jstr s => pyIntOfString s
  | JsonValue.jbool b => some (if b then 1 else 0)
  | JsonValue.jnull => none
  | JsonValue.jarr => none
  | JsonValue.jobj => none

/-- What one upstream billing call produced, after `json.loads`: the
whole call failed (curl error or unparsable body), the body was valid
JSON but not an object (so `.get` raises `AttributeError`), or it was a
JSON object given by its fields. -/
inductive UpstreamResponse where
  | failure
  | jsonOther (v : JsonValue)
  | jsonObject (fields : List (String × JsonValue))

/-- `fetch_usage` (lines 11-27): `int(result.get("total_usage", 0))`
with every exception mapped to 0 by the enclosing try/except.  A missing
field defaults to 0; a present field is coerced with `int`, and a
coercion failure is caught, yielding 0. -/
def fetch_usage : UpstreamResponse → Int
  | UpstreamResponse.jsonObject fields =>
    (match fields.lookup ("total_usage") with
     | some v => (pyInt v).getD 0
     | none => 0)
  | UpstreamResponse.failure => 0
  | UpstreamResponse.jsonOther _ => 0

/-- `check_recent_costs` (lines 29-43), parameterized by the two dated
fetches.  Each fetch is a computation that may raise
(`Except.error ()`); each `try/except` maps a raise to cost 0.  The
result is `(cost_today + cost_yesterday) > 0`, and the function itself
returns normally (`Except.ok`) on every input. -/
def check_recent_costs (fetchToday fetchYesterday : Except Unit Int) :
    Except Unit Bool :=
  let cost_today : Int :=
    match fetchToday with
    | Except.ok n => n
    | Except.error _ => 0
  let cost_yesterday : Int :=
    match fetchYesterday with
    | Except.ok n => n
    | Except.error _ => 0
  Except.ok (decide (cost_today + cost_yesterday > 0))

/-- The cost a fetch outcome contributes to the sum: its value if it
returned, 0 if it raised. -/
def orZero (f : Except Unit Int) : Int :=
  match f with
  | Except.ok n => n
  | Except.error _ => 0

/-- The boolean verdict the aggregator wraps in `Except.ok`. -/
def verdict (fT fY : Except Unit Int) : Bool :=
  decide (0 < orZero fT + orZero fY)

/-- Whether a byte is a UTF-8 continuation byte. -/
def isCont (b : Nat) : Bool :=
  0x80 ≤ b && b < 0xC0

/-- Strict UTF-8 decoding, the behaviour of Python
`bytes.decode("utf-8")` (line 59): `none` is `UnicodeDecodeError`.
Overlong forms, unpaired surrogates, codepoints above `0x10FFFF`, stray
continuation bytes and truncated sequences are all rejected, exactly as
Python's strict codec does. -/
def utf8Decode : List Nat → Option (List Char)
  | [] => some []
  | b :: rest =>
    if b < 0x80 then
      (match utf8Decode rest with
       | some cs => some (Char.ofNat b :: cs)
       | none => none)
    else if b < 0xC2 then none
    else if b < 0xE0 then
      (match rest with
       | c1 :: rest1 =>
         if isCont c1 then
           (match utf8Decode rest1 with
            | some cs => some (Char.ofNat ((b - 0xC0) * 0x40 + (c1 - 0x80)) :: cs)
            | none => none)
         else none
       | [] => none)
    else if b < 0xF0 then
      (match rest with
       | c1 :: c2 :: rest2 =>
         if isCont c1 && isCont c2 then
           (if 0x800 ≤ (b - 0xE0) * 0x1000 + (c1 - 0x80) * 0x40 + (c2 - 0x80) &&
               !(0xD800 ≤ (b - 0xE0) * 0x1000 + (c1 - 0x80) * 0x40 + (c2 - 0x80) &&
                 (b - 0xE0) * 0x1000 + (c1 - 0x80) * 0x40 + (c2 - 0x80) < 0xE000) then
             (match utf8Decode rest2 with
              | some cs =>
                some (Char.ofNat ((b - 0xE0) * 0x1000 + (c1 - 0x80) * 0x40 + (c2 - 0x80)) :: cs)
              | none => none)
           else none)
         else none
       | _ => none)
    else if b < 0xF5 then
      (match rest with
       | c1 :: c2 :: c3 :: rest3 =>
         if isCont c1 && isCont c2 && isCont c3 then
           (if 0x10000 ≤ (b - 0xF0) * 0x40000 + (c1 - 0x80) * 0x1000 + (c2 - 0x80) * 0x40 + (c3 - 0x80) &&
               (b - 0xF0) * 0x40000 + (c1 - 0x80) * 0x1000 + (c2 - 0x80) * 0x40 + (c3 - 0x80) ≤ 0x10FFFF then
             (match utf8Decode rest3 with
              | some cs =>
                some (Char.ofNat ((b - 0xF0) * 0x40000 + (c1 - 0x80) * 0x1000 + (c2 - 0x80) * 0x40 + (c3 - 0x80)) :: cs)
              | none => none)
           else none)
         else none
       | _ => none)
    else none

/-- Per-request handling after the read loop (lines 59-64): decode the
buffer as UTF-8 (a decode failure is an uncaught `UnicodeDecodeError`,
hence `Except.error ()`), strip whitespace from both ends, uppercase;
the token `STATUS` answers `TRUE\n` or `FALSE\n` by the aggregator's
verdict, any other token answers `ERR Unknown Command\n`. -/
def handleLine (data : List Nat) (fetchToday fetchYesterday : Except Unit Int) :
    Except Unit (List Char) :=
  match utf8Decode data with
  | none => Except.error ()
  | some cs =>
    if pyUpper (pyStrip cs) = ("STATUS").data then
      (match check_recent_costs fetchToday fetchYesterday with
       | Except.error e => Except.error e
       | Except.ok b =>
         Except.ok ((if b then ("TRUE\n") else ("FALSE\n")).data))
    else Except.ok (("ERR Unknown Command\n").data)

/-- The per-connection read loop (lines 53-58) over a fixed stream of
`recv` results: while the accumulated buffer does not end with a `\n`
byte, take the next chunk; an empty chunk (the peer closed) or an
exhausted stream stops the loop. -/
def readLoop (data : List Nat) (chunks : List (List Nat)) : List Nat :=
  if data.getLast? = some 10 then data
  else
    match chunks with
    | [] => data
    | more :: rest => if more = [] then data else readLoop (data ++ more) rest

/-- The same read loop over `recv` results that may raise a socket
error: the loop body has no exception handler, so an error from `recv`
propagates (lines 53-58). -/
def readLoopE (data : List Nat) (recvs : List (Except Unit (List Nat))) :
    Except Unit (List Nat) :=
  if data.getLast? = some 10 then Except.ok data
  else
    match recvs with
    | [] => Except.ok data
    | Except.error e :: _ => Except.error e
    | Except.ok more :: rest =>
      if more = [] then Except.ok data else readLoopE (data ++ more) rest

/-- One accepted connection as the environment presents it: the stream
of `recv` results, whether `sendall` succeeds, and the two dated fetch
behaviours observed if a STATUS command triggers them. -/
structure ConnInput where
  recvs : List (Except Unit (List Nat))
  sendOk : Bool
  fetchToday : Except Unit Int
  fetchYesterday : Except Unit Int

/-- Handling of a single accepted connection inside the accept loop
(lines 52-64): read loop, then decode/dispatch, then `sendall`.  No
exception is caught anywhere in this region, so an error from any stage
propagates out (`Except.error ()`); otherwise the reply line that was
written is returned. -/
def serveConn (c : ConnInput) : Except Unit (List Char) :=
  match readLoopE [] c.recvs with
  | Except.error e => Except.error e
  | Except.ok data =>
    match handleLine data c.fetchToday c.fetchYesterday with
    | Except.error e => Except.error e
    | Except.ok reply =>
      if c.sendOk then Except.ok reply else Except.error ()

/-- The accept loop of `main` (lines 50-64) restricted to a finite
prefix of connections: connections are served strictly in order, and an
exception from serving one propagates out of the loop (killing the
process), so later connections are not reached. -/
def mainLoop : List ConnInput → Except Unit (List (List Char))
  | [] => Except.ok []
  | c :: rest =>
    match serveConn c with
    | Except.error e => Except.error e
    | Except.ok reply =>
      (match mainLoop rest with
       | Except.error e => Except.error e
       | Except.ok rs => Except.ok (reply :: rs))

/-- `main` (lines 45-64): binding the listening socket happens first and
a bind failure propagates (fatal), otherwise the accept loop runs. -/
def runServer (bindOk : Bool) (conns : List ConnInput) :
    Except Unit (List (List Char)) :=
  if bindOk then mainLoop conns else Except.error ()

/-- The command token as the spec words it, from the decoded line. -/
def specToken (cs : List Char) : List Char :=
  pyUpper (pyStrip cs)

/-- The reply line the spec prescribes for a command token and a
verdict. -/
def specReply (token : List Char) (v : Bool) : List Char :=
  if token = ("STATUS").data then (if v then ("TRUE\n") else ("FALSE\n")).data
  else ("ERR Unknown Command\n").data

/-- One string is a letter-casing of another: characterwise it is either
the character itself or its lowercase form. -/
def isCasingOf : List Char → List Char → Prop
  | [], [] => True
  | c :: cs, d :: ds => (c = d ∨ c = Char.toLower d) ∧ isCasingOf cs ds
  | _, _ => False

/-- The aggregator always returns normally, with the verdict boolean. -/
theorem check_recent_costs_eq_verdict (fT fY : Except Unit Int) :
    check_recent_costs fT fY = Except.ok (verdict fT fY) := by
  cases fT <;> cases fY <;> rfl

/-- C1: if the usage fetch for today returns `a ≥ 0` and the fetch for
yesterday returns `b ≥ 0`, then `check_recent_costs` returns true if and
only if `a + b > 0`. -/
theorem check_recent_costs_iff_sum_pos (a b : Int) (ha : 0 ≤ a) (hb : 0 ≤ b) :
    check_recent_costs (Except.ok a) (Except.ok b) = Except.ok true ↔ 0 < a + b := by
  rw [check_recent_costs_eq_verdict]
  simp [verdict, orZero]

/-- Concrete instance of `check_recent_costs_iff_sum_pos` at `a = 3`,
`b = 0`. -/
theorem check_recent_costs_iff_sum_pos_w :
    check_recent_costs (Except.ok 3) (Except.ok 0) = Except.ok true :=
  (check_recent_costs_iff_sum_pos 3 0 (by decide) (by decide)).mpr (by decide)

/-- C2: a failed (raising) fetch contributes exactly what a fetch
returning 0 contributes, on either side and without affecting the other
side; two failures give the verdict `false`; and on every pair of fetch
behaviours the aggregator returns normally (never propagates an
exception). -/
theorem check_recent_costs_failure_isolated :
    (∀ f : Except Unit Int,
      check_recent_costs (Except.error ()) f = check_recent_costs (Except.ok 0) f
      ∧ check_recent_costs f (Except.error ()) = check_recent_costs f (Except.ok 0))
    ∧ check_recent_costs (Except.error ()) (Except.error ()) = Except.ok false
    ∧ ∀ fT fY : Except Unit Int, ∃ b : Bool, check_recent_costs fT fY = Except.ok b := by
  refine ⟨fun f => ⟨?_, ?_⟩, rfl, fun fT fY => ⟨verdict fT fY, check_recent_costs_eq_verdict fT fY⟩⟩ <;>
    cases f <;> rfl

/-- C8: the aggregator's verdict is invariant under swapping the two
dated fetches, and more generally depends only on the sum of the two
failure-defaulted amounts. -/
theorem check_recent_costs_order_and_sum (fT fY fT2 fY2 : Except Unit Int) :
    check_recent_costs fT fY = check_recent_costs fY fT
    ∧ (orZero fT + orZero fY = orZero fT2 + orZero fY2 →
        check_recent_costs fT fY = check_recent_costs fT2 fY2) := by
  constructor
  · rw [check_recent_costs_eq_verdict, check_recent_costs_eq_verdict, verdict, verdict,
      Int.add_comm]
  · intro hsum
    rw [check_recent_costs_eq_verdict, check_recent_costs_eq_verdict, verdict, verdict, hsum]

/-- Concrete instance of `check_recent_costs_order_and_sum`: a returned
2 with a raising partner gives the same verdict as 0 and 2. -/
theorem check_recent_costs_order_and_sum_w :
    check_recent_costs (Except.ok 2) (Except.error ())
      = check_recent_costs (Except.ok 0) (Except.ok 2) :=
  (check_recent_costs_order_and_sum (Except.ok 2) (Except.error ())
    (Except.ok 0) (Except.ok 2)).2 (by decide)

/-- C7 counterexample: an upstream body `{"total_usage": -5}` is
accepted by `fetch_usage`, which returns the negative amount -5 to the
aggregator, contradicting the claim that a negative amount is never
returned. -/
theorem fetch_usage_negative_passthrough :
    fetch_usage (UpstreamResponse.jsonObject
        [(("total_usage" : String), JsonValue.jnum ((-5 : Int) : ℚ))]) = -5
    ∧ fetch_usage (UpstreamResponse.jsonObject
        [(("total_usage" : String), JsonValue.jnum ((-5 : Int) : ℚ))]) < 0 := by
  constructor <;> decide

/-- C7 amended: `fetch_usage` maps every failure to amount 0 and
otherwise returns the integer coercion of `total_usage`; the amount is
non-negative whenever every successful coercion of the supplied
`total_usage` value is non-negative, but a negative upstream value is
passed through unchanged. -/
theorem fetch_usage_nonneg_of_upstream (resp : UpstreamResponse)
    (h : ∀ fields v n, resp = UpstreamResponse.jsonObject fields →
      fields.lookup ("total_usage") = some v → pyInt v = some n → 0 ≤ n) :
    0 ≤ fetch_usage resp := by
  cases resp with
  | failure => exact le_refl 0
  | jsonOther v => exact le_refl 0
  | jsonObject fields =>
    show (0 : Int) ≤ (match fields.lookup ("total_usage") with
      | some v => (pyInt v).getD 0
      | none => (0 : Int))
    cases hv : fields.lookup ("total_usage") with
    | none => exact le_refl (0 : Int)
    | some v =>
      show (0 : Int) ≤ (pyInt v).getD 0
      cases hn : pyInt v with
      | none => exact le_refl (0 : Int)
      | some n =>
        simp only [Option.getD_some]
        exact h fields v n rfl hv hn

/-- Concrete instance of `fetch_usage_nonneg_of_upstream` at the body
`{"total_usage": 7}`. -/
theorem fetch_usage_nonneg_of_upstream_w :
    0 ≤ fetch_usage (UpstreamResponse.jsonObject
      [(("total_usage" : String), JsonValue.jnum ((7 : Int) : ℚ))]) :=
  fetch_usage_nonneg_of_upstream _ (by
    intro fields v n hresp hv hn
    cases hresp
    have hv2 : some (JsonValue.jnum ((7 : Int) : ℚ)) = some v := hv
    cases hv2
    have hn2 : some (7 : Int) = some n := hn
    cases hn2
    decide)

/-- C9: `int` coercion in `fetch_usage`: a numeric string `"123"` is
accepted and yields 123; an exact numeric value strictly between 0 and 1
is truncated toward zero, yielding 0; and an absent `total_usage` field
yields 0 rather than a failure. -/
theorem fetch_usage_int_coercion :
    fetch_usage (UpstreamResponse.jsonObject
        [(("total_usage" : String), JsonValue.jstr (("123").data))]) = 123
    ∧ (∀ q : ℚ, 0 < q → q < 1 →
        fetch_usage (UpstreamResponse.jsonObject
          [(("total_usage" : String), JsonValue.jnum q)]) = 0)
    ∧ fetch_usage (UpstreamResponse.jsonObject []) = 0 := by
  refine ⟨by decide, ?_, by decide⟩
  intro q h1 h2
  have htr : q.num.tdiv q.den = 0 :=
    Int.tdiv_eq_zero_of_lt (le_of_lt (Rat.num_pos.mpr h1))
      (Rat.lt_one_iff_num_lt_denom.mp h2)
  show (pyInt (JsonValue.jnum q)).getD 0 = 0
  simp [pyInt, pyTrunc, htr]

/-- Concrete instance of `fetch_usage_int_coercion` at the fractional
value 1/2, which is reported as amount 0. -/
theorem fetch_usage_int_coercion_w :
    fetch_usage (UpstreamResponse.jsonObject
      [(("total_usage" : String), JsonValue.jnum (mkRat 1 2))]) = 0 :=
  fetch_usage_int_coercion.2.1 (mkRat 1 2) (by decide) (by decide)

/-- Reduction of `handleLine` once the decode step is known to succeed:
the aggregator always returns normally, so the reply is decided by the
token and the verdict. -/
theorem handleLine_of_decode (data : List Nat) (cs : List Char)
    (fT fY : Except Unit Int) (hdec : utf8Decode data = some cs) :
    handleLine data fT fY =
      (if pyUpper (pyStrip cs) = ("STATUS").data then
        Except.ok ((if verdict fT fY then ("TRUE\n") else ("FALSE\n")).data)
      else Except.ok (("ERR Unknown Command\n").data)) := by
  rw [handleLine, hdec, check_recent_costs_eq_verdict]

/-- C3 counterexample: the received buffer `0xFF 0x0A` (terminated by a
newline, hence delivered by the read loop) is not valid UTF-8; the
handler raises an uncaught `UnicodeDecodeError` and the connection
handling propagates it, so no reply line at all is written to the
client. -/
theorem handleLine_invalid_utf8_raises :
    handleLine [0xFF, 10] (Except.ok 0) (Except.ok 0) = Except.error ()
    ∧ serveConn (ConnInput.mk [Except.ok [0xFF, 10]] true (Except.ok 0) (Except.ok 0))
        = Except.error () :=
  ⟨rfl, rfl⟩

/-- C3 amended: for every byte buffer that decodes as UTF-8 the reply is
exactly one of the three lines `TRUE\n`, `FALSE\n`,
`ERR Unknown Command\n`; a buffer that is not valid UTF-8 instead makes
the handler raise an uncaught decode error, so the client gets no reply
at all. -/
theorem handleLine_reply_one_of_three (data : List Nat) (fT fY : Except Unit Int) :
    (utf8Decode data = none ∧ handleLine data fT fY = Except.error ())
    ∨ handleLine data fT fY = Except.ok (("TRUE\n").data)
    ∨ handleLine data fT fY = Except.ok (("FALSE\n").data)
    ∨ handleLine data fT fY = Except.ok (("ERR Unknown Command\n").data) := by
  cases hdec : utf8Decode data with
  | none =>
    exact Or.inl ⟨rfl, by simp [handleLine, hdec]⟩
  | some cs =>
    right
    rw [handleLine_of_decode data cs fT fY hdec]
    by_cases hcmd : pyUpper (pyStrip cs) = ("STATUS").data
    · rw [if_pos hcmd]
      cases verdict fT fY with
      | true => exact Or.inl rfl
      | false => exact Or.inr (Or.inl rfl)
    · rw [if_neg hcmd]
      exact Or.inr (Or.inr rfl)

/-- C5 counterexample: for the received line `" STATUS\n"` the claim's
token (trailing whitespace stripped, then uppercased) is `" STATUS"`,
which differs from `"STATUS"`, so the claim would demand the reply
`ERR Unknown Command\n`; the code strips the leading space as well and
answers the status query. -/
theorem handleLine_leading_space_status :
    pyUpper (pyStripRight ((" STATUS\n").data)) ≠ ("STATUS").data
    ∧ handleLine [32, 83, 84, 65, 84, 85, 83, 10] (Except.ok 1) (Except.ok 0)
        = Except.ok (("TRUE\n").data)
    ∧ ("TRUE\n").data ≠ ("ERR Unknown Command\n").data :=
  ⟨by decide, rfl, by decide⟩

/-- C5 amended: the command token is obtained by decoding the buffer,
stripping whitespace from both ends, and uppercasing; the token
`STATUS` is answered by `TRUE\n` or `FALSE\n` according to the verdict,
and every other token (the empty token from an empty or whitespace-only
line included) by `ERR Unknown Command\n`. -/
theorem handleLine_token_spec (data : List Nat) (cs : List Char)
    (fT fY : Except Unit Int) (hdec : utf8Decode data = some cs) :
    handleLine data fT fY = Except.ok (specReply (specToken cs) (verdict fT fY)) := by
  rw [handleLine_of_decode data cs fT fY hdec, specReply, specToken]
  by_cases hcmd : pyUpper (pyStrip cs) = ("STATUS").data
  · rw [if_pos hcmd, if_pos hcmd]
  · rw [if_neg hcmd, if_neg hcmd]

/-- Concrete instance of `handleLine_token_spec` on the line
`"PING\n"`. -/
theorem handleLine_token_spec_w :
    handleLine [80, 73, 78, 71, 10] (Except.ok 0) (Except.ok 0)
      = Except.ok (specReply (specToken (("PING\n").data))
          (verdict (Except.ok 0) (Except.ok 0))) :=
  handleLine_token_spec [80, 73, 78, 71, 10] (("PING\n").data)
    (Except.ok 0) (Except.ok 0) (by decide)

/-- C6 counterexample: with the chunk stream `[A \n B, C \n]` a newline
byte has been seen after the first chunk, yet the loop keeps reading
(the buffer does not end with `\n`) and the handler receives the whole
accumulated buffer, not the part up to the first chunk. -/
theorem readLoop_passes_inner_newline :
    readLoop [] [[65, 10, 66], [67, 10]] = [65, 10, 66, 67, 10]
    ∧ 10 ∈ [65, 10, 66]
    ∧ [65, 10, 66, 67, 10] ≠ [65, 10, 66] := by
  refine ⟨rfl, by decide, by decide⟩

/-- Stop analysis of the read loop, generalized over the buffer already
accumulated: the loop consumes some prefix of the chunk stream, stopping
at the first point where the accumulated buffer ends with a newline
byte, the stream is exhausted, or an empty chunk (peer close) arrives. -/
theorem readLoop_take_aux (chunks : List (List Nat)) (data : List Nat) :
    ∃ n, n ≤ chunks.length
      ∧ readLoop data chunks = data ++ (chunks.take n).flatten
      ∧ ((data ++ (chunks.take n).flatten).getLast? = some 10
         ∨ n = chunks.length ∨ chunks[n]? = some [])
      ∧ ∀ m, m < n → (data ++ (chunks.take m).flatten).getLast? ≠ some 10
          ∧ chunks[m]? ≠ some ([] : List Nat) := by
  induction chunks generalizing data with
  | nil =>
    refine ⟨0, Nat.le_refl 0, ?_, Or.inr (Or.inl rfl), fun m hm => absurd hm (Nat.not_lt_zero m)⟩
    rw [readLoop]
    simp
  | cons ch rest ih =>
    by_cases hd : data.getLast? = some 10
    · refine ⟨0, Nat.zero_le _, ?_, Or.inl ?_, fun m hm => absurd hm (Nat.not_lt_zero m)⟩
      · rw [readLoop, if_pos hd]
        simp
      · simpa using hd
    · by_cases hch : ch = ([] : List Nat)
      · refine ⟨0, Nat.zero_le _, ?_, Or.inr (Or.inr ?_), fun m hm => absurd hm (Nat.not_lt_zero m)⟩
        · rw [readLoop, if_neg hd, if_pos hch]
          simp
        · simp [hch]
      · obtain ⟨n, hn, heq, hcond, hmin⟩ := ih (data ++ ch)
        refine ⟨n + 1, Nat.succ_le_succ hn, ?_, ?_, ?_⟩
        · rw [readLoop, if_neg hd, if_neg hch, heq]
          simp [List.take_succ_cons, List.append_assoc]
        · rcases hcond with h | h | h
          · exact Or.inl (by simpa [List.take_succ_cons, List.append_assoc] using h)
          · exact Or.inr (Or.inl (by simp [h]))
          · exact Or.inr (Or.inr (by simpa using h))
        · intro m hm
          cases m with
          | zero =>
            constructor
            · simpa using hd
            · simpa using hch
          | succ m =>
            obtain ⟨h1, h2⟩ := hmin m (Nat.lt_of_succ_lt_succ hm)
            constructor
            · simpa [List.take_succ_cons, List.append_assoc] using h1
            · simpa using h2

/-- C6 amended: for every sequence of chunks, the read loop stops
accumulating as soon as the data received so far ends with a `\n` byte,
or when the peer closes the connection (empty chunk) or the stream is
exhausted, whichever comes first; everything received up to that point
is what it passes on as one buffer. -/
theorem readLoop_stops_at_trailing_newline (chunks : List (List Nat)) :
    ∃ n, n ≤ chunks.length
      ∧ readLoop [] chunks = (chunks.take n).flatten
      ∧ (((chunks.take n).flatten).getLast? = some 10
         ∨ n = chunks.length ∨ chunks[n]? = some [])
      ∧ ∀ m, m < n → ((chunks.take m).flatten).getLast? ≠ some 10
          ∧ chunks[m]? ≠ some ([] : List Nat) := by
  obtain ⟨n, hn, heq, hcond, hmin⟩ := readLoop_take_aux chunks []
  refine ⟨n, hn, by simpa using heq, by simpa using hcond, fun m hm => ?_⟩
  obtain ⟨h1, h2⟩ := hmin m hm
  exact ⟨by simpa using h1, h2⟩

/-- Unfolding of the erroring read loop at a `recv` error while the
buffer does not yet end in a newline. -/
theorem readLoopE_recv_error (data : List Nat) (e : Unit)
    (rest : List (Except Unit (List Nat))) (hd : ¬ data.getLast? = some 10) :
    readLoopE data (Except.error e :: rest) = Except.error e := by
  rw [readLoopE.eq_def, if_neg hd]

/-- Unfolding of the erroring read loop at a nonempty received chunk
while the buffer does not yet end in a newline. -/
theorem readLoopE_recv_chunk (data more : List Nat)
    (rest : List (Except Unit (List Nat))) (hd : ¬ data.getLast? = some 10)
    (hne : more ≠ ([] : List Nat)) :
    readLoopE data (Except.ok more :: rest) = readLoopE (data ++ more) rest := by
  rw [readLoopE.eq_def, if_neg hd]
  show (if more = ([] : List Nat) then Except.ok data
    else readLoopE (data ++ more) rest) = readLoopE (data ++ more) rest
  rw [if_neg hne]

/-- A socket error raised by `recv` while the loop is still reading
(every earlier chunk was nonempty and never left the buffer ending in a
newline) propagates out of the read loop. -/
theorem readLoopE_error_of_pending (pre : List (List Nat)) :
    ∀ (data : List Nat) (rest : List (Except Unit (List Nat))),
      (∀ m, m ≤ pre.length → (data ++ (pre.take m).flatten).getLast? ≠ some 10) →
      (∀ ch ∈ pre, ch ≠ ([] : List Nat)) →
      readLoopE data (pre.map Except.ok ++ Except.error () :: rest) = Except.error () := by
  induction pre with
  | nil =>
    intro data rest hnl hne
    have hd : ¬ data.getLast? = some 10 := by simpa using hnl 0 (Nat.zero_le 0)
    rw [List.map_nil, List.nil_append]
    exact readLoopE_recv_error data () rest hd
  | cons ch pre ih =>
    intro data rest hnl hne
    have hd : ¬ data.getLast? = some 10 := by simpa using hnl 0 (Nat.zero_le _)
    have hch : ch ≠ ([] : List Nat) := hne ch (List.mem_cons_self ch pre)
    rw [List.map_cons, List.cons_append, readLoopE_recv_chunk data ch _ hd hch]
    refine ih (data ++ ch) rest (fun m hm => ?_) (fun c hc => hne c (List.mem_cons_of_mem ch hc))
    have h2 := hnl (m + 1) (Nat.succ_le_succ hm)
    simpa [List.take_succ_cons, List.append_assoc] using h2

/-- C4 counterexample: a `recv` error on the first connection makes the
whole accept loop die with the uncaught exception, and the second,
well-behaved connection (which alone would have been answered
`TRUE\n`) is never served — so a connection error is not contained to
the affected connection. -/
theorem mainLoop_stops_after_conn_error :
    mainLoop [ConnInput.mk [Except.error ()] true (Except.ok 0) (Except.ok 0),
        ConnInput.mk [Except.ok [83, 84, 65, 84, 85, 83, 10]] true (Except.ok 1) (Except.ok 0)]
      = Except.error ()
    ∧ mainLoop [ConnInput.mk [Except.ok [83, 84, 65, 84, 85, 83, 10]] true
        (Except.ok 1) (Except.ok 0)]
      = Except.ok [("TRUE\n").data] :=
  ⟨rfl, rfl⟩

/-- C4 amended: a bind failure at startup is fatal, and so is every
error on a client socket: the accept loop catches nothing, so a `recv`
error while a connection is still being read, or a `sendall` failure
when writing the reply, propagates out of the loop and no later
connection is served. -/
theorem socket_and_bind_errors_fatal :
    (∀ conns, runServer false conns = Except.error ())
    ∧ (∀ c : ConnInput, c.sendOk = false → serveConn c = Except.error ())
    ∧ (∀ (c : ConnInput) (pre : List (List Nat)) (rest : List (Except Unit (List Nat))),
        c.recvs = pre.map Except.ok ++ Except.error () :: rest →
        (∀ m, m ≤ pre.length → ((pre.take m).flatten).getLast? ≠ some 10) →
        (∀ ch ∈ pre, ch ≠ ([] : List Nat)) →
        serveConn c = Except.error ())
    ∧ (∀ (c : ConnInput) (rest : List ConnInput),
        serveConn c = Except.error () → mainLoop (c :: rest) = Except.error ()) := by
  refine ⟨fun conns => rfl, ?_, ?_, ?_⟩
  · intro c hsend
    rw [serveConn]
    cases readLoopE [] c.recvs with
    | error e => rfl
    | ok data =>
      show (match handleLine data c.fetchToday c.fetchYesterday with
        | Except.error e => Except.error e
        | Except.ok reply =>
          if c.sendOk = true then Except.ok reply else Except.error ()) = Except.error ()
      cases handleLine data c.fetchToday c.fetchYesterday with
      | error e => rfl
      | ok reply =>
        show (if c.sendOk = true then Except.ok reply else Except.error ()) = Except.error ()
        rw [hsend]
        simp
  · intro c pre rest hrecvs hnl hne
    have hloop : readLoopE [] c.recvs = Except.error () := by
      rw [hrecvs]
      exact readLoopE_error_of_pending pre [] rest (fun m hm => by simpa using hnl m hm) hne
    rw [serveConn, hloop]
  · intro c rest hserve
    rw [mainLoop, hserve]

/-- Concrete instances of `socket_and_bind_errors_fatal`: a failed
`sendall`, a `recv` error after one pending chunk, and the loop dying on
an erroring connection, all at explicit inputs. -/
theorem socket_and_bind_errors_fatal_w :
    serveConn (ConnInput.mk [Except.ok [83]] false (Except.ok 0) (Except.ok 0))
      = Except.error ()
    ∧ serveConn (ConnInput.mk [Except.ok [83], Except.error ()] true
        (Except.ok 0) (Except.ok 0)) = Except.error ()
    ∧ mainLoop [ConnInput.mk [Except.error ()] true (Except.ok 0) (Except.ok 0)]
      = Except.error () := by
  refine ⟨?_, ?_, ?_⟩
  · exact socket_and_bind_errors_fatal.2.1 _ rfl
  · exact socket_and_bind_errors_fatal.2.2.1 _ [[83]] [] rfl (by decide) (by decide)
  · exact socket_and_bind_errors_fatal.2.2.2 _ []
      (socket_and_bind_errors_fatal.2.2.1 _ [] [] rfl (by decide) (by decide))

/-- Dropping a whitespace-only block from the front of a concatenation
continues into the tail. -/
theorem dropWhile_all_append (p : Char → Bool) (ws rest : List Char)
    (h : ∀ c ∈ ws, p c = true) :
    List.dropWhile p (ws ++ rest) = List.dropWhile p rest := by
  induction ws with
  | nil => rfl
  | cons a l ih =>
    have ha : p a = true := h a (List.mem_cons_self a l)
    rw [List.cons_append, List.dropWhile_cons_of_pos ha]
    exact ih (fun c hc => h c (List.mem_cons_of_mem a hc))

/-- Stripping whitespace from both ends of a line that is whitespace,
then a block starting and ending in non-whitespace, then whitespace,
recovers exactly the inner block. -/
theorem pyStrip_sandwich (ws1 ws2 mid : List Char) (a z : Char)
    (hws1 : ∀ c ∈ ws1, pyIsSpace c = true) (hws2 : ∀ c ∈ ws2, pyIsSpace c = true)
    (ha : pyIsSpace a = false) (hz : pyIsSpace z = false) :
    pyStrip (ws1 ++ (a :: (mid ++ [z])) ++ ws2) = a :: (mid ++ [z]) := by
  have hleft : pyStripLeft (ws1 ++ (a :: (mid ++ [z])) ++ ws2)
      = a :: (mid ++ [z] ++ ws2) := by
    rw [pyStripLeft, List.append_assoc, dropWhile_all_append pyIsSpace ws1 _ hws1]
    rw [List.cons_append, List.dropWhile_cons_of_neg (by simp [ha]), List.append_assoc]
  have hrev : (a :: (mid ++ [z] ++ ws2)).reverse
      = ws2.reverse ++ (z :: (mid.reverse ++ [a])) := by
    simp
  rw [pyStrip, hleft, pyStripRight, hrev,
    dropWhile_all_append pyIsSpace ws2.reverse _ (fun c hc => hws2 c (List.mem_reverse.mp hc)),
    List.dropWhile_cons_of_neg (by simp [hz])]
  simp

/-- From a characterwise casing fact, uppercasing restores the original
character, and the cased character inherits non-whitespaceness; the two
side conditions are discharged per concrete character. -/
theorem casing_char_facts (c d : Char) (h : c = d ∨ c = Char.toLower d)
    (h1 : Char.toUpper d = d) (h2 : Char.toUpper (Char.toLower d) = d)
    (h3 : pyIsSpace d = false) (h4 : pyIsSpace (Char.toLower d) = false) :
    Char.toUpper c = d ∧ pyIsSpace c = false := by
  rcases h with rfl | rfl
  · exact ⟨h1, h3⟩
  · exact ⟨h2, h4⟩

/-- A letter-casing of `STATUS` is a six-character list whose characters
are drawn from the respective upper/lower pairs. -/
theorem casing_status_shape (cs : List Char) (h : isCasingOf cs (("STATUS").data)) :
    ∃ c1 c2 c3 c4 c5 c6, cs = [c1, c2, c3, c4, c5, c6]
      ∧ (c1 = 'S' ∨ c1 = 's') ∧ (c2 = 'T' ∨ c2 = 't') ∧ (c3 = 'A' ∨ c3 = 'a')
      ∧ (c4 = 'T' ∨ c4 = 't') ∧ (c5 = 'U' ∨ c5 = 'u') ∧ (c6 = 'S' ∨ c6 = 's') := by
  rcases cs with _ | ⟨c1, cs⟩
  · exact (h : False).elim
  rcases cs with _ | ⟨c2, cs⟩
  · exact (h.2 : False).elim
  rcases cs with _ | ⟨c3, cs⟩
  · exact (h.2.2 : False).elim
  rcases cs with _ | ⟨c4, cs⟩
  · exact (h.2.2.2 : False).elim
  rcases cs with _ | ⟨c5, cs⟩
  · exact (h.2.2.2.2 : False).elim
  rcases cs with _ | ⟨c6, cs⟩
  · exact (h.2.2.2.2.2 : False).elim
  rcases cs with _ | ⟨c7, cs⟩
  · exact ⟨c1, c2, c3, c4, c5, c6, rfl, h.1, h.2.1, h.2.2.1, h.2.2.2.1,
      h.2.2.2.2.1, h.2.2.2.2.2.1⟩
  · exact (h.2.2.2.2.2.2 : False).elim

/-- C10: for every letter-casing of the word `status` and every
surrounding whitespace in the received line (leading as well as
trailing, a `\r\n` terminator included), the reply equals the reply to
the plain line `STATUS\n`: the handler strips whitespace from both ends
of the decoded line before uppercasing. -/
theorem handleLine_casing_ws_invariant (data : List Nat) (ws1 cs ws2 : List Char)
    (fT fY : Except Unit Int)
    (hdec : utf8Decode data = some (ws1 ++ cs ++ ws2))
    (hws1 : ∀ c ∈ ws1, pyIsSpace c = true)
    (hws2 : ∀ c ∈ ws2, pyIsSpace c = true)
    (hcasing : isCasingOf cs (("STATUS").data)) :
    handleLine data fT fY
      = handleLine ((("STATUS\n").data).map Char.toNat) fT fY := by
  obtain ⟨c1, c2, c3, c4, c5, c6, hshape, h1, h2, h3, h4, h5, h6⟩ :=
    casing_status_shape cs hcasing
  subst hshape
  have f1 := casing_char_facts c1 ( 'S') h1 (by decide) (by decide) (by decide) (by decide)
  have f2 := casing_char_facts c2 ( 'T') h2 (by decide) (by decide) (by decide) (by decide)
  have f3 := casing_char_facts c3 ( 'A') h3 (by decide) (by decide) (by decide) (by decide)
  have f4 := casing_char_facts c4 ( 'T') h4 (by decide) (by decide) (by decide) (by decide)
  have f5 := casing_char_facts c5 ( 'U') h5 (by decide) (by decide) (by decide) (by decide)
  have f6 := casing_char_facts c6 ( 'S') h6 (by decide) (by decide) (by decide) (by decide)
  have hstrip : pyStrip (ws1 ++ [c1, c2, c3, c4, c5, c6] ++ ws2)
      = [c1, c2, c3, c4, c5, c6] :=
    pyStrip_sandwich ws1 ws2 [c2, c3, c4, c5] c1 c6 hws1 hws2 f1.2 f6.2
  have hupper : pyUpper [c1, c2, c3, c4, c5, c6] = ("STATUS").data := by
    rw [pyUpper, List.map_cons, List.map_cons, List.map_cons, List.map_cons,
      List.map_cons, List.map_cons, List.map_nil,
      f1.1, f2.1, f3.1, f4.1, f5.1, f6.1]
  have hR : utf8Decode ((("STATUS\n").data).map Char.toNat)
      = some (("STATUS\n").data) := by decide
  rw [handleLine_of_decode data _ fT fY hdec, handleLine_of_decode _ _ fT fY hR,
    hstrip, hupper]
  rw [show pyUpper (pyStrip (("STATUS\n").data)) = ("STATUS").data from (by decide)]

/-- Concrete instance of `handleLine_casing_ws_invariant` on the line
`" sTaTus\r\n"`. -/
theorem handleLine_casing_ws_invariant_w :
    handleLine [32, 115, 84, 97, 84, 117, 115, 13, 10] (Except.ok 0) (Except.ok 0)
      = handleLine ((("STATUS\n").data).map Char.toNat) (Except.ok 0) (Except.ok 0) :=
  handleLine_casing_ws_invariant [32, 115, 84, 97, 84, 117, 115, 13, 10]
    [ ' '] (("sTaTus").data) [ '\r', '\n'] (Except.ok 0) (Except.ok 0)
    (by decide) (by decide) (by decide)
    ⟨Or.inr rfl, Or.inl rfl, Or.inr rfl, Or.inl rfl, Or.inr rfl, Or.inr rfl, trivial⟩

end CircuitBreaker
